import Mathlib

set_option linter.unusedVariables false

/-
  Verification of the ZenoSend email deliverability engine
  (src/app/email_validation.py) against its specification.

  The Python source is shallowly embedded: pure functions become Lean
  functions on String / List Char; network effects (the RFC parser
  `email_validator.validate_email`, DNS resolution, SMTP sessions) are
  modelled as explicit oracle parameters, and every exception the source
  swallows corresponds to an Option-valued oracle answer handled totally.
  Floating point scores are modelled as exact rationals: every score the
  source computes is an exact multiple of 1/100, where binary floating
  point and exact arithmetic agree after rounding to 3 decimals.
-/

namespace ZenoSend

/- ---------- character / list utilities ---------- -/

/-- Split a list of characters at every occurrence of `sep`
(model of Python `str.split(sep)`); never returns `[]`. -/
def splitChar (sep : Char) : List Char → List (List Char)
  | [] => [[]]
  | c :: cs =>
    let r := splitChar sep cs
    if c = sep then [] :: r
    else
      match r with
      | [] => [[c]]
      | h :: t => (c :: h) :: t

def isPrefixL : List Char → List Char → Bool
  | [], _ => true
  | _ :: _, [] => false
  | a :: as, b :: bs => a = b && isPrefixL as bs

/-- Model of Python `needle in hay` on strings. -/
def containsSub (n : List Char) : List Char → Bool
  | [] => isPrefixL n []
  | c :: t => isPrefixL n (c :: t) || containsSub n t

def endsWithL (pat s : List Char) : Bool :=
  isPrefixL pat.reverse s.reverse

def lowerStr (s : String) : String := ⟨s.data.map Char.toLower⟩

def upperL (l : List Char) : List Char := l.map Char.toUpper

/-- Python `str.strip()` whitespace set (ASCII part; the inputs the
claims exercise are ASCII). -/
def isPyWs (c : Char) : Bool :=
  c = ' ' || c = '\t' || c = '\n' || c = '\r' || c = '\x0b' || c = '\x0c'

def stripEnds (p : Char → Bool) (l : List Char) : List Char :=
  ((l.dropWhile p).reverse.dropWhile p).reverse

/-- Lexicographic (code-point) comparison, model of Python `str < str`. -/
def lexLt : List Char → List Char → Bool
  | [], [] => false
  | [], _ :: _ => true
  | _ :: _, [] => false
  | a :: as, b :: bs => if a = b then lexLt as bs else decide (a < b)

def lexLe (a b : List Char) : Bool := !(lexLt b a)

def insertSorted (s : String) : List String → List String
  | [] => [s]
  | h :: t => if lexLe s.data h.data then s :: h :: t else h :: insertSorted s t

/-- Stable ascending sort, model of Python `sorted` on strings. -/
def sortStrs (l : List String) : List String := l.foldr insertSorted []

/-- Python `str.rstrip(".")`. -/
def rstripDot (s : String) : String :=
  ⟨(s.data.reverse.dropWhile (fun c => c = '.')).reverse⟩

/- ---------- configuration tables (src/app/email_validation.py) ---------- -/

def DISPOSABLE_DOMAINS : List String :=
  ["mailinator.com", "10minutemail.com", "tempmail.com", "guerrillamail.com",
   "yopmail.com", "trashmail.com"]

def ROLE_ACCOUNTS : List String :=
  ["admin", "administrator", "support", "info", "hello", "sales", "contact",
   "billing", "accounts", "noreply", "no-reply", "security", "abuse", "postmaster"]

def FREE_PROVIDERS : List String :=
  ["gmail.com", "googlemail.com", "yahoo.com", "ymail.com", "outlook.com",
   "hotmail.com", "live.com", "icloud.com", "me.com", "aol.com", "proton.me",
   "zoho.com", "gmx.com", "mail.com"]

/-- Source dict in insertion order (first match wins in `provider_blocks_smtp`). -/
def SMTP_BLOCKLIST_PROVIDERS : List (String × String) :=
  [("gmail.com", "Google Workspace/Gmail"),
   ("googlemail.com", "Google Workspace/Gmail"),
   ("outlook.com", "Microsoft 365/Outlook"),
   ("hotmail.com", "Microsoft 365/Hotmail"),
   ("live.com", "Microsoft 365/Live"),
   ("office365.com", "Microsoft 365"),
   ("microsoft.com", "Microsoft 365"),
   ("yahoo.com", "Yahoo"),
   ("proton.me", "Proton"),
   ("icloud.com", "Apple iCloud"),
   ("me.com", "Apple iCloud"),
   ("aol.com", "AOL")]

/-- `sorted(FREE_PROVIDERS | {...})` from the source, written out in the
(code point) order Python's `sorted` produces. -/
def COMMON_DOMAINS : List String :=
  ["aol.com", "gamil.com", "gmai.com", "gmail.co", "gmail.com", "gmx.com",
   "gmx.de", "gnail.com", "googlemail.com", "hotmail.com", "hotnail.com",
   "icloud.co", "icloud.com", "live.com", "mail.com", "mail.ru", "me.co",
   "me.com", "outlok.com", "outlook.com", "pm.me", "proton.me",
   "protonmail.com", "yahoo.co", "yahoo.com", "yhoo.com", "ymail.com",
   "zoho.com", "zoho.in"]

/- ---------- normalize / syntax ---------- -/

/-- `normalize`: strip surrounding whitespace, then strip surrounding
double-quote and semicolon characters, then remove every space. -/
def normalize (email : String) : String :=
  ⟨(stripEnds (fun c => c = '"' || c = ';') (stripEnds isPyWs email.data)).filter
      (fun c => c ≠ ' ')⟩

/-- Character class of the local part of `EMAIL_REGEX`: ASCII letters,
digits, and the special atom characters given here by code points. -/
def isLocalChar (c : Char) : Bool :=
  c.isAlphanum ||
    (let n := c.toNat
     n = 33 || n = 35 || n = 36 || n = 37 || n = 38 || n = 39 || n = 42 ||
     n = 43 || n = 45 || n = 47 || n = 61 || n = 63 || n = 94 || n = 95 ||
     n = 96 || n = 123 || n = 124 || n = 125 || n = 126)

/-- Character class `[A-Za-z0-9-]` of the domain labels of `EMAIL_REGEX`. -/
def isDomainChar (c : Char) : Bool :=
  c.isAlphanum || c = '-'

/-- Local part of `EMAIL_REGEX`: dot-separated nonempty atoms. -/
def localOkL (l : List Char) : Bool :=
  (splitChar '.' l).all (fun p => !p.isEmpty && p.all isLocalChar)

/-- Domain part of `EMAIL_REGEX`: at least two dot-separated nonempty
labels of `[A-Za-z0-9-]`. -/
def domainOkL (d : List Char) : Bool :=
  let ps := splitChar '.' d
  decide (2 ≤ ps.length) && ps.all (fun p => !p.isEmpty && p.all isDomainChar)

/-- Full-string match of `EMAIL_REGEX` returning the `local` and `domain`
groups.  Both character classes exclude a commercial at, so a match has
exactly one of them, i.e. the split on it has exactly two parts. -/
def emailRegexMatch (s : String) : Option (String × String) :=
  match splitChar '@' s.data with
  | [l, d] => if localOkL l && domainOkL d then some (⟨l⟩, ⟨d⟩) else none
  | _ => none

/-- `check_syntax`: the RFC-aware parser `email_validator.validate_email`
is an external library, modelled as the oracle `primary` (returning the
parsed local part and domain, or `none` where the library raises
`EmailNotValidError`); the in-repo fallback is `EMAIL_REGEX`. -/
def check_syntax (primary : String → Option (String × String)) (email : String) :
    Bool × Option String × Option String :=
  match primary email with
  | some (l, d) => (true, some l, some d)
  | none =>
    match emailRegexMatch email with
    | some (l, d) => (true, some l, some d)
    | none => (false, none, none)

/- ---------- heuristic classifiers ---------- -/

def is_disposable (domain : String) : Bool :=
  DISPOSABLE_DOMAINS.contains (lowerStr domain)

/-- `is_role_account`: root of the local part before the first plus sign,
then before the first dot, lower-cased. -/
def is_role_account (lp : String) : Bool :=
  let root := (splitChar '.' ((splitChar '+' lp.data).headD [])).headD []
  ROLE_ACCOUNTS.contains (lowerStr ⟨root⟩)

/-- `provider_blocks_smtp`: first blocklist entry whose key equals the
lower-cased domain or is a dot-suffix of it. -/
def provider_blocks_smtp (domain : String) : Option String :=
  let d := lowerStr domain
  (SMTP_BLOCKLIST_PROVIDERS.find?
      (fun kv => d == kv.1 || endsWithL ("." ++ kv.1).data d.data)).map (·.2)

/- ---------- typo_suggestion: embedding of difflib.get_close_matches ----------

`difflib.SequenceMatcher` is used with no junk predicate and sequences far
below the autojunk threshold (200), so junk handling is inert.  A matching
block is found per `find_longest_match`'s contract: among all (i, j, k)
with a[i:i+k] = b[j:j+k] and k maximal, the one with least i, then least
j; the total number of matched elements is the sum of block sizes from
the recursive block decomposition, and ratio = 2*M/(len a + len b). -/

/-- Length of the longest common prefix of two character lists. -/
def prefLen : List Char → List Char → Nat
  | a :: as, b :: bs => if a = b then prefLen as bs + 1 else 0
  | _, _ => 0

/-- `find_longest_match` on whole sequences: maximal k, ties broken by
least i then least j (scan order with strict improvement). -/
def flm (a b : List Char) : Nat × Nat × Nat :=
  (List.range a.length).foldl
    (fun best i =>
      (List.range b.length).foldl
        (fun best2 j =>
          let k := prefLen (a.drop i) (b.drop j)
          if best2.2.2 < k then (i, j, k) else best2)
        best)
    (0, 0, 0)

/-- Total size of all matching blocks (`get_matching_blocks` recursion).
Structural fuel keeps the definition kernel-evaluable; each recursive call
strictly decreases `a.length + b.length` (the matched block is nonempty),
so the seed `a.length + b.length + 1` used below never runs out. -/
def matchingTotalF : Nat → List Char → List Char → Nat
  | 0, _, _ => 0
  | fuel + 1, a, b =>
    let t := flm a b
    if t.2.2 = 0 then 0
    else
      matchingTotalF fuel (a.take t.1) (b.take t.2.1) + t.2.2 +
        matchingTotalF fuel (a.drop (t.1 + t.2.2)) (b.drop (t.2.1 + t.2.2))

def matchingTotal (a b : List Char) : Nat :=
  matchingTotalF (a.length + b.length + 1) a b

/-- `SequenceMatcher.ratio()` with seq1 = `a`, seq2 = `b`, kept as the
exact unreduced fraction numerator/denominator `(2*M, len a + len b)`;
all uses compare such fractions by cross-multiplication, which agrees
with comparison of the exact rationals (denominators are positive for
the nonempty sequences compared here), and with the source's floating
point comparisons, since no reachable ratio lies close enough to the
cutoff for rounding to flip an inequality.  The quick-ratio screens in
`get_close_matches` are upper bounds of the ratio and therefore
redundant for its final filter. -/
def simPair (a b : List Char) : Nat × Nat :=
  (2 * matchingTotal a b, a.length + b.length)

/-- Fraction comparison `p ≤ q` by cross-multiplication. -/
def fracLe (p q : Nat × Nat) : Bool := decide (p.1 * q.2 ≤ q.1 * p.2)

/-- Fraction comparison `p < q` by cross-multiplication. -/
def fracLt (p q : Nat × Nat) : Bool := decide (p.1 * q.2 < q.1 * p.2)

/-- Best scorer of `heapq.nlargest(1, result)`: larger (ratio, string)
pair wins, ratio ties broken by the lexicographically larger string
(Python tuple order). -/
def pickBest (acc : Option ((Nat × Nat) × List Char)) (c : (Nat × Nat) × List Char) :
    Option ((Nat × Nat) × List Char) :=
  match acc with
  | none => some c
  | some b =>
    if fracLt b.1 c.1 || (!fracLt b.1 c.1 && !fracLt c.1 b.1 && lexLt b.2 c.2) then
      some c
    else some b

/-- `difflib.get_close_matches(word, poss, n=1, cutoff)`, cutoff given as
a fraction. -/
def getCloseMatches1 (word : List Char) (poss : List (List Char))
    (cutoff : Nat × Nat) : Option (List Char) :=
  (poss.foldl
      (fun acc x =>
        let r := simPair x word
        if fracLe cutoff r then pickBest acc (r, x) else acc)
      none).map (·.2)

/-- The `fixes` dict of `typo_suggestion` in insertion order. -/
def typoFixes : List (String × String) :=
  [("gamil.com", "gmail.com"), ("gnail.com", "gmail.com"),
   ("gmai.com", "gmail.com"), ("gmail.co", "gmail.com"),
   ("yhoo.com", "yahoo.com"), ("yahoo.co", "yahoo.com"),
   ("hotnail.com", "hotmail.com"), ("outlok.com", "outlook.com"),
   ("iclod.com", "icloud.com"), ("me.co", "me.com"),
   ("protonmail.com", "proton.me"), ("pm.me", "proton.me")]

/-- `typo_suggestion`: exact fix table first, else
`difflib.get_close_matches(d, COMMON_DOMAINS, n=1, cutoff=0.86)`.
The cutoff is the exact fraction 43/50. -/
def typo_suggestion (domain : String) : Option String :=
  let d := lowerStr domain
  match typoFixes.lookup d with
  | some v => some v
  | none =>
    (getCloseMatches1 d.data (COMMON_DOMAINS.map (·.data)) (43, 50)).map
      (fun l => (⟨l⟩ : String))

/- ---------- check_mx: exchanger resolution with process-wide cache ---------- -/

/-- The process-wide `_mx_cache`, modelled as an association list
(newest entry first). -/
def MxCache := List (String × (Bool × List String × String))

/-- Provider fingerprinting loop of `check_mx`: substring signatures,
last matching host wins, non-matching hosts keep the previous guess. -/
def providerGuessOf (hosts : List String) : String :=
  hosts.foldl
    (fun pg h =>
      let hl := (lowerStr h).data
      if containsSub ("google".data) hl then "Google Workspace/Gmail"
      else if containsSub ("outlook".data) hl ||
          containsSub ("protection.outlook.com".data) hl ||
          containsSub ("microsoft".data) hl then "Microsoft 365/Outlook"
      else if containsSub ("yahoodns".data) hl || containsSub ("yahoo".data) hl then
        "Yahoo"
      else if containsSub ("proton".data) hl then "Proton"
      else if containsSub ("icloud".data) hl || containsSub ("me.com".data) hl then
        "Apple iCloud"
      else pg)
    ""

/-- `check_mx`: the DNS lookup `dns.resolver.resolve(domain, "MX")` is the
oracle `resolve` (`none` covers every swallowed failure: timeout,
NXDOMAIN, no records); on success the exchange hostnames are stripped of
a trailing dot and sorted.  Returns the triple and the updated cache;
a cached domain is answered from the cache without consulting `resolve`. -/
def check_mx (resolve : String → Option (List String)) (cache : MxCache)
    (domain : String) : (Bool × List String × String) × MxCache :=
  match cache.lookup domain with
  | some v => (v, cache)
  | none =>
    match resolve domain with
    | some answers =>
      let hosts := sortStrs (answers.map rstripDot)
      let res := (true, hosts, providerGuessOf hosts)
      (res, (domain, res) :: cache)
    | none =>
      let res := (false, ([] : List String), "")
      (res, (domain, res) :: cache)

/- ---------- smtp_probe ---------- -/

/-- One SMTP session against one host.  Each field is the server's reply
code for the corresponding step of `smtp_probe`; `none` stands for any
connection-level exception at that step (the per-host `try` swallows it).
`ehloText` is the full EHLO reply text, searched for the STARTTLS
capability (note the source searches it even when EHLO failed and HELO
was used). -/
structure HostSession where
  connectOk : Bool
  banner : Option Nat
  ehlo : Option (Nat × String)
  helo : Option Nat
  starttls : Option Nat
  tlsWrapOk : Bool
  posttlsEhlo : Option Nat
  mailFrom : Option Nat
  rcpt : Option Nat
deriving DecidableEq

/-- Outcome of probing one host: a terminal classification, or abandoning
the host for the next one, optionally recording a new "last reason". -/
inductive HostResult where
  | accepted
  | temp
  | rejected
  | abandoned (reason : Option String)
deriving DecidableEq

/-- Reason fragment for an int code: the code in decimal, or the word
unknown when the code is 0 (falsy in the source format string). -/
def codeStr (c : Nat) : String := if c = 0 then "unknown" else toString c

/-- MAIL FROM / RCPT TO tail of the per-host exchange. -/
def mailFromPhase (s : HostSession) : HostResult :=
  match s.mailFrom with
  | none => .abandoned none
  | some mc =>
    if mc ≠ 250 ∧ mc ≠ 251 then .abandoned (some ("mf-" ++ codeStr mc))
    else
      match s.rcpt with
      | none => .abandoned none
      | some rc =>
        if rc = 250 then .accepted
        else if rc = 450 ∨ rc = 451 ∨ rc = 452 then .temp
        else if 500 ≤ rc ∧ rc ≤ 599 then .rejected
        else .abandoned (some ("smtp-" ++ codeStr rc))

/-- STARTTLS negotiation (entered only when offered and enabled), then
the mail-from phase. -/
def starttlsPhase (s : HostSession) (useStarttls : Bool) (etext : String) :
    HostResult :=
  if useStarttls && containsSub ("STARTTLS".data) (upperL etext.data) then
    match s.starttls with
    | none => .abandoned none
    | some stc =>
      if stc = 220 then
        if s.tlsWrapOk = false then .abandoned none
        else
          match s.posttlsEhlo with
          | none => .abandoned none
          | some pc =>
            if pc ≠ 250 then .abandoned (some ("posttls-ehlo-" ++ toString pc))
            else mailFromPhase s
      else mailFromPhase s
  else mailFromPhase s

/-- The whole per-host exchange of `smtp_probe`: banner, EHLO (with HELO
fallback), optional STARTTLS, MAIL FROM, RCPT TO. -/
def probeHost (s : HostSession) (useStarttls : Bool) : HostResult :=
  if s.connectOk = false then .abandoned none
  else
    match s.banner with
    | none => .abandoned none
    | some bc =>
      if bc ≠ 220 then .abandoned (some ("bad-banner-" ++ toString bc))
      else
        match s.ehlo with
        | none => .abandoned none
        | some (ec, etext) =>
          if ec ≠ 250 then
            match s.helo with
            | none => .abandoned none
            | some hc =>
              if hc ≠ 250 then .abandoned (some ("helo-fail-" ++ toString hc))
              else starttlsPhase s useStarttls etext
          else starttlsPhase s useStarttls etext

/-- Host loop of `smtp_probe`, threading the running `last_reason`. -/
def probeLoop (env : String → HostSession) (useStarttls : Bool)
    (lastReason : String) : List String → Option Bool × String
  | [] => (none, lastReason)
  | h :: rest =>
    match probeHost (env h) useStarttls with
    | .accepted => (some true, "smtp-250")
    | .temp => (none, "smtp-temp")
    | .rejected => (some false, "smtp-5xx")
    | .abandoned r => probeLoop env useStarttls (r.getD lastReason) rest

/-- `smtp_probe`: sessions against candidate hosts are the oracle `env`
(the target address only influences the sessions, so it is absorbed into
the oracle).  Tries the first 3 hosts; `last_reason` starts at
"smtp-inconclusive". -/
def smtp_probe (env : String → HostSession) (mx_hosts : List String)
    (useStarttls : Bool) : Option Bool × String :=
  if mx_hosts = [] then (none, "no-mx")
  else probeLoop env useStarttls ("smtp-inconclusive") (mx_hosts.take 3)

/- ---------- is_accept_all ---------- -/

/-- Attempt loop of `is_accept_all`: `probeRes i` is the tri-state result
of `smtp_probe` on the i-th synthetic random address (the random
local-part generation and the network are absorbed into this oracle).
Returns `none` the moment an attempt is inconclusive, else the final
success count. -/
def aaCount (probeRes : Nat → Option Bool) : Nat → Nat → Nat → Option Nat
  | _, 0, successes => some successes
  | i, remaining + 1, successes =>
    match probeRes i with
    | some true => aaCount probeRes (i + 1) remaining (successes + 1)
    | none => none
    | some false => aaCount probeRes (i + 1) remaining successes

/-- `is_accept_all` with `ACCEPT_ALL_PROBES = acceptAllProbes`. -/
def is_accept_all (probeRes : Nat → Option Bool) (acceptAllProbes : Nat)
    (mx_hosts : List String) : Option Bool :=
  if mx_hosts = [] then none
  else
    let attempts := max 1 acceptAllProbes
    match aaCount probeRes 0 attempts 0 with
    | none => none
    | some successes =>
      if successes = attempts then some true
      else if successes = 0 then some false
      else none

/- ---------- scoring ---------- -/

/-- `round(float(score), 3)`.  Every score reaching this is an exact
multiple of 1/100, where Python's float arithmetic and half-even
rounding agree with exact rational rounding (the value is already a
3-decimal fraction, so rounding is the identity on reachable inputs). -/
def round3 (q : ℚ) : ℚ := ((round (q * 1000) : ℤ) : ℚ) / 1000

/-- The `checks` dict of `validate_email_record`. -/
structure Checks where
  has_valid_address_syntax : Bool
  has_mx_or_a_record : Bool
  is_disposable : Bool
  is_role_address : Bool
  is_free_provider : Bool
  is_accept_all : Option Bool
  smtp_checked : Bool
  smtp_deliverable : Bool
  domain : Option String
deriving DecidableEq

/-- `_fallback_risky_score` (the source's leading underscore is dropped
from the Lean name).  The source reads the spread dict
`{**checks, "unverifiable_provider": unverifiable}`; the extra key is the
second argument here. -/
def fallback_risky_score (checks : Checks) (unverifiable : Bool) : ℚ :=
  let s0 : ℚ := 0.62
  let s1 := if checks.is_disposable then s0 - 0.22 else s0
  let s2 := if checks.is_role_address then s1 - 0.12 else s1
  let s3 := if checks.is_free_provider then s2 - 0.03 else s2
  let s4 := if checks.is_accept_all = some true then s3 - 0.18 else s3
  let s5 := if unverifiable then s4 - 0.08 else s4
  max 0 (min 0.89 s5)

/- ---------- validate_email_record ---------- -/

/-- The structured record `validate_email_record` returns: one field per
key of the source's result dict. -/
structure ValidationResult where
  email : String
  verdict : String
  status : String
  score : ℚ
  checks : Checks
  provider : Option String
  suggestion : Option String
  reason : String
deriving DecidableEq

/-- Environment-style configuration of the module
(`ALLOW_SMTP_PROBE`, `PROBE_BLOCKED_PROVIDERS`). -/
structure Config where
  allowSmtpProbe : Bool
  probeBlocked : Bool

/-- External world of one `validate_email_record` call: the RFC parser,
the observed `check_mx` answer for a domain, the observed `smtp_probe`
outcome for the target address and the observed `is_accept_all` outcome
(the latter two components are quantified over, matching the state
machine's case split on probe/detector outcomes). -/
structure Env where
  primary : String → Option (String × String)
  mx : String → Bool × List String × String
  smtp : Option Bool × String
  acceptAll : Option Bool

/-- Python truthiness of an optional string. -/
def truthyS : Option String → Bool
  | none => false
  | some s => s ≠ ""

/-- `x or None` on an optional string (empty string is falsy). -/
def orNoneS : Option String → Option String
  | none => none
  | some s => if s = "" then none else some s

/-- `s or o` where `s` is a string and `o` an optional string. -/
def strOr (s : String) (o : Option String) : Option String :=
  if s = "" then o else some s

/-- `s or None` on a string. -/
def strOrNone (s : String) : Option String :=
  if s = "" then none else some s

/-- `check_syntax(normalize(email))` inside `validate_email_record`. -/
def syntaxTriple (env : Env) (email : String) :
    Bool × Option String × Option String :=
  check_syntax env.primary (normalize email)

/-- `bool(ok and local and domain)`. -/
def hasSyntaxB (env : Env) (email : String) : Bool :=
  (syntaxTriple env email).1 && truthyS (syntaxTriple env email).2.1 &&
    truthyS (syntaxTriple env email).2.2

/-- The parsed local part (used only after the syntax check passed). -/
def localOf (env : Env) (email : String) : String :=
  ((syntaxTriple env email).2.1).getD ("")

/-- The parsed domain (used only after the syntax check passed). -/
def domainOf (env : Env) (email : String) : String :=
  ((syntaxTriple env email).2.2).getD ("")

/-- Fall-through tail of `validate_email_record` (steps after the probe
branch): reason from the unverifiable flag, fallback risky score, the
dead `reason if reason else (smtp_note or "dns-only")` kept verbatim. -/
def fallbackRecord (raw : String) (checks : Checks) (provider_guess : String)
    (block_name : Option String) (sug : Option String) (unverifiable : Bool)
    (smtp_note : String) : ValidationResult :=
  let reason := if unverifiable then "unverifiable" else "dns-only"
  let score := fallback_risky_score checks unverifiable
  { email := raw, verdict := "risky", status := "risky",
    score := round3 score, checks := checks,
    provider := strOr provider_guess block_name, suggestion := sug,
    reason := if reason = "" then (if smtp_note = "" then "dns-only" else smtp_note)
              else reason }

/-- `validate_email_record(email, timeout, do_smtp, accept_all_note)`.
The timeout only parameterizes the absorbed network oracles. -/
def validate_email_record (cfg : Config) (env : Env) (email : String)
    (timeout : ℚ) (do_smtp : Bool) (accept_all_note : Bool) : ValidationResult :=
  let raw := email
  let checks0 : Checks :=
    { has_valid_address_syntax := hasSyntaxB env email,
      has_mx_or_a_record := false, is_disposable := false,
      is_role_address := false, is_free_provider := false,
      is_accept_all := none, smtp_checked := false, smtp_deliverable := false,
      domain := orNoneS (syntaxTriple env email).2.2 }
  if hasSyntaxB env email = false then
    { email := raw, verdict := "invalid", status := "invalid", score := 0.05,
      checks := checks0, provider := none, suggestion := none,
      reason := "bad-syntax" }
  else
    let lp := localOf env email
    let dom := domainOf env email
    let checks1 : Checks :=
      { checks0 with
        is_role_address := is_role_account lp,
        is_disposable := is_disposable dom,
        is_free_provider := FREE_PROVIDERS.contains (lowerStr dom) }
    let sug := typo_suggestion dom
    let mxr := env.mx dom
    let has_mx := mxr.1
    let provider_guess := mxr.2.2
    let checks2 : Checks := { checks1 with has_mx_or_a_record := has_mx }
    if has_mx = false then
      { email := raw, verdict := "invalid", status := "invalid", score := 0.10,
        checks := checks2, provider := strOrNone provider_guess,
        suggestion := sug, reason := "no-mx" }
    else
      let block_name := provider_blocks_smtp dom
      if do_smtp && cfg.allowSmtpProbe then
        let checks3 : Checks := { checks2 with smtp_checked := true }
        if block_name.isSome && !cfg.probeBlocked then
          fallbackRecord raw checks3 provider_guess block_name sug true ("")
        else
          match env.smtp with
          | (some true, _) =>
            let aa := env.acceptAll
            let checks4 : Checks :=
              { checks3 with
                smtp_deliverable := true,
                is_accept_all := aa }
            if aa = some true ∧ accept_all_note = true then
              { email := raw, verdict := "risky", status := "risky",
                score := 0.74, checks := checks4,
                provider := strOr provider_guess block_name,
                suggestion := sug, reason := "accept-all" }
            else
              { email := raw, verdict := "valid", status := "valid",
                score := 0.95, checks := checks4,
                provider := strOr provider_guess block_name,
                suggestion := sug, reason := "smtp-250" }
          | (some false, _) =>
            { email := raw, verdict := "invalid", status := "invalid",
              score := 0.15,
              checks := { checks3 with is_accept_all := some false },
              provider := strOr provider_guess block_name,
              suggestion := sug, reason := "smtp-5xx" }
          | (none, smtp_note) =>
            fallbackRecord raw checks3 provider_guess block_name sug true smtp_note
      else
        fallbackRecord raw checks2 provider_guess block_name sug
          block_name.isSome ("")

/- ---------- concrete fixtures used by witnesses and counterexamples ---------- -/

/-- An RFC-parser oracle that rejects everything (forcing the regex path). -/
def primNone : String → Option (String × String) := fun _ => none

/-- Environment: exchangers found, probe accepted, detector positive. -/
def envAcceptAll : Env :=
  ⟨primNone, fun _ => (true, ["mx1.example"], ""), (some true, "smtp-250"), some true⟩

/-- Environment: exchangers found, probe and detector never consulted. -/
def envMxOnly : Env :=
  ⟨primNone, fun _ => (true, ["mx1.example"], ""), (none, ""), none⟩

/-- Environment with no exchangers and no probe. -/
def envNoMx : Env :=
  ⟨primNone, fun _ => (false, [], ""), (none, ""), none⟩

/-- A host session that runs cleanly up to RCPT TO and answers `c` there. -/
def rcptSession (c : Nat) : HostSession :=
  { connectOk := true, banner := some 220, ehlo := some (250, ""),
    helo := none, starttls := none, tlsWrapOk := true, posttlsEhlo := none,
    mailFrom := some 250, rcpt := some c }

/-- Session oracle: first host answers RCPT with 450, second with 250. -/
def envTempThenAccept : String → HostSession := fun h =>
  if h = "h1" then rcptSession 450 else rcptSession 250

/-- Session oracle: every host accepts the recipient. -/
def envAllAccept : String → HostSession := fun _ => rcptSession 250

/-- The malformed predicate of the claim about bad syntax: the normalized
string has no commercial at, or an empty domain part (after the last at),
or no dot in that domain part. -/
def malformedB (s : String) : Bool :=
  match splitChar '@' s.data with
  | [_] => true
  | ps =>
    match ps.getLast? with
    | none => true
    | some d => d.isEmpty || !(decide ('.' ∈ d))

/- ---------- helper lemmas ---------- -/

theorem splitChar_no_sep (sep : Char) (l : List Char) (h : sep ∉ l) :
    splitChar sep l = [l] := by
  induction l with
  | nil => rfl
  | cons c cs ih =>
    have hc : ¬ c = sep := fun hcs => h (hcs ▸ List.mem_cons_self c cs)
    have hcs : sep ∉ cs := fun hm => h (List.mem_cons_of_mem c hm)
    simp [splitChar, hc, ih hcs]

theorem malformed_regex_none (s : String) (h : malformedB s = true) :
    emailRegexMatch s = none := by
  unfold malformedB at h
  unfold emailRegexMatch
  match hsp : splitChar '@' s.data with
  | [] => rfl
  | [_] => rfl
  | [l, d] =>
    rw [hsp] at h
    simp only [List.getLast?] at h
    have hd : d.isEmpty = true ∨ ('.' ∈ d → False) := by
      rcases Bool.or_eq_true_iff.mp h with h1 | h2
      · exact Or.inl h1
      · exact Or.inr (fun hm => by simp [hm] at h2)
    have hdo : domainOkL d = false := by
      rcases hd with h1 | h2
      · have : d = [] := List.isEmpty_iff.mp h1
        subst this
        rfl
      · have : splitChar '.' d = [d] := splitChar_no_sep '.' d h2
        simp [domainOkL, this]
    simp [hdo]
  | a :: b :: c :: rest => rfl

/- ========== claim theorems ========== -/

/-- Claim C9: within one process, a second `check_mx` call for the same
domain returns exactly the `(has-exchanger, host list, provider-guess)`
triple computed by the first call, for any (possibly different) resolver
oracle at the second call: the cache entry is authoritative once set. -/
theorem c9_mx_cache_authoritative
    (res1 res2 : String → Option (List String)) (cache : MxCache)
    (domain : String) :
    (check_mx res2 (check_mx res1 cache domain).2 domain).1 =
      (check_mx res1 cache domain).1 := by
  unfold check_mx
  match h : cache.lookup domain with
  | some v => simp [h]
  | none =>
    match hr : res1 domain with
    | some answers => simp [h, hr, List.lookup]
    | none => simp [h, hr, List.lookup]

/-- Claim C10: on every terminal branch the returned record's `status`
field equals its `verdict` field. -/
theorem c10_status_equals_verdict (cfg : Config) (env : Env) (email : String)
    (timeout : ℚ) (do_smtp accept_all_note : Bool) :
    (validate_email_record cfg env email timeout do_smtp accept_all_note).status =
      (validate_email_record cfg env email timeout do_smtp accept_all_note).verdict := by
  unfold validate_email_record fallbackRecord
  dsimp only
  repeat' split
  all_goals rfl

/-- Claim C2: for every input string and every combination of the
timeout, `do_smtp` and `accept_all_note` arguments (and any behaviour of
the absorbed parser/DNS/SMTP oracles), `validate_email_record` returns a
structured `ValidationResult` record — the Lean embedding is a total
function into a structure carrying exactly the keys email, verdict,
status, score, checks, provider, suggestion, reason — whose `email` field
is the raw input and whose `verdict` is one of valid/invalid/risky. -/
theorem c2_total_structured_result (cfg : Config) (env : Env) (email : String)
    (timeout : ℚ) (do_smtp accept_all_note : Bool) :
    (validate_email_record cfg env email timeout do_smtp accept_all_note).email =
        email ∧
      ((validate_email_record cfg env email timeout do_smtp accept_all_note).verdict =
          "valid" ∨
        (validate_email_record cfg env email timeout do_smtp accept_all_note).verdict =
          "invalid" ∨
        (validate_email_record cfg env email timeout do_smtp accept_all_note).verdict =
          "risky") := by
  unfold validate_email_record fallbackRecord
  dsimp only
  repeat' split
  all_goals simp

theorem aaCount_all_true (probeRes : Nat → Option Bool) :
    ∀ (r i s : Nat), (∀ k, k < r → probeRes (i + k) = some true) →
      aaCount probeRes i r s = some (s + r) := by
  intro r
  induction r with
  | zero => intro i s _; rfl
  | succ n ih =>
    intro i s h
    have h0 : probeRes i = some true := by simpa using h 0 (Nat.succ_pos n)
    have hrec := ih (i + 1) (s + 1) (fun k hk => by
      have := h (k + 1) (Nat.succ_lt_succ hk)
      rwa [Nat.add_comm k 1, ← Nat.add_assoc] at this)
    simp only [aaCount, h0, hrec]
    congr 1
    omega

theorem aaCount_all_false (probeRes : Nat → Option Bool) :
    ∀ (r i s : Nat), (∀ k, k < r → probeRes (i + k) = some false) →
      aaCount probeRes i r s = some s := by
  intro r
  induction r with
  | zero => intro i s _; rfl
  | succ n ih =>
    intro i s h
    have h0 : probeRes i = some false := by simpa using h 0 (Nat.succ_pos n)
    have hrec := ih (i + 1) s (fun k hk => by
      have := h (k + 1) (Nat.succ_lt_succ hk)
      rwa [Nat.add_comm k 1, ← Nat.add_assoc] at this)
    simp only [aaCount, h0, hrec]

theorem aaCount_has_none (probeRes : Nat → Option Bool) :
    ∀ (r i s : Nat), (∃ k, k < r ∧ probeRes (i + k) = none) →
      aaCount probeRes i r s = none := by
  intro r
  induction r with
  | zero => intro i s ⟨k, hk, _⟩; omega
  | succ n ih =>
    intro i s ⟨k, hk, hkn⟩
    match h0 : probeRes i with
    | none => simp [aaCount, h0]
    | some true =>
      have hk0 : k ≠ 0 := fun h => by rw [h] at hkn; simp at hkn; simp [hkn] at h0
      have : aaCount probeRes (i + 1) n (s + 1) = none := by
        refine ih (i + 1) (s + 1) ⟨k - 1, by omega, ?_⟩
        have : i + 1 + (k - 1) = i + k := by omega
        rw [this]; exact hkn
      simp [aaCount, h0, this]
    | some false =>
      have hk0 : k ≠ 0 := fun h => by rw [h] at hkn; simp at hkn; simp [hkn] at h0
      have : aaCount probeRes (i + 1) n s = none := by
        refine ih (i + 1) s ⟨k - 1, by omega, ?_⟩
        have : i + 1 + (k - 1) = i + k := by omega
        rw [this]; exact hkn
      simp [aaCount, h0, this]

theorem aaCount_isSome (probeRes : Nat → Option Bool) :
    ∀ (r i s : Nat), (∀ k, k < r → probeRes (i + k) ≠ none) →
      ∃ t, aaCount probeRes i r s = some t := by
  intro r
  induction r with
  | zero => intro i s _; exact ⟨s, rfl⟩
  | succ n ih =>
    intro i s h
    have hshift : ∀ k, k < n → probeRes (i + 1 + k) ≠ none := fun k hk => by
      have := h (k + 1) (Nat.succ_lt_succ hk)
      rwa [Nat.add_comm k 1, ← Nat.add_assoc] at this
    match h0 : probeRes i with
    | none => exact absurd h0 (by simpa using h 0 (Nat.succ_pos n))
    | some true =>
      obtain ⟨t, ht⟩ := ih (i + 1) (s + 1) hshift
      exact ⟨t, by simp [aaCount, h0, ht]⟩
    | some false =>
      obtain ⟨t, ht⟩ := ih (i + 1) s hshift
      exact ⟨t, by simp [aaCount, h0, ht]⟩

theorem aaCount_inv (probeRes : Nat → Option Bool) :
    ∀ (r i s t : Nat), aaCount probeRes i r s = some t →
      s ≤ t ∧ t ≤ s + r ∧
        (t = s + r → ∀ k, k < r → probeRes (i + k) = some true) ∧
        (t = s → ∀ k, k < r → probeRes (i + k) = some false) := by
  intro r
  induction r with
  | zero =>
    intro i s t h
    have : s = t := by simpa [aaCount] using h
    subst this
    exact ⟨Nat.le_refl s, by omega, fun _ k hk => by omega, fun _ k hk => by omega⟩
  | succ n ih =>
    intro i s t h
    match h0 : probeRes i with
    | none => rw [show aaCount probeRes i (n + 1) s = none by simp [aaCount, h0]] at h; cases h
    | some true =>
      have hrec : aaCount probeRes (i + 1) n (s + 1) = some t := by
        have := h; rwa [show aaCount probeRes i (n + 1) s =
          aaCount probeRes (i + 1) n (s + 1) by simp [aaCount, h0]] at this
      obtain ⟨hle, hub, hall, hnone⟩ := ih (i + 1) (s + 1) t hrec
      refine ⟨by omega, by omega, ?_, ?_⟩
      · intro ht k hk
        match k with
        | 0 => simpa using h0
        | k + 1 =>
          have hx := hall (by omega) k (by omega)
          have e : i + (k + 1) = i + 1 + k := by omega
          rw [e]; exact hx
      · intro ht; omega
    | some false =>
      have hrec : aaCount probeRes (i + 1) n s = some t := by
        have := h; rwa [show aaCount probeRes i (n + 1) s =
          aaCount probeRes (i + 1) n s by simp [aaCount, h0]] at this
      obtain ⟨hle, hub, hall, hnone⟩ := ih (i + 1) s t hrec
      refine ⟨hle, by omega, fun ht => by omega, ?_⟩
      intro ht k hk
      match k with
      | 0 => simpa using h0
      | k + 1 =>
        have hx := hnone ht k (by omega)
        have e : i + (k + 1) = i + 1 + k := by omega
        rw [e]; exact hx

/-- Claim C3: for every non-empty host list and every sequence of
per-attempt probe outcomes, `is_accept_all` returns None as soon as any
attempt is Inconclusive; True only if every attempt returned Accepted;
False only if every attempt returned Rejected; None for any mix of
Accepted and Rejected with no Inconclusive; and None without probing
(i.e. for every outcome oracle) when the host list is empty. -/
theorem c3_accept_all_detector (probeRes : Nat → Option Bool) (p : Nat)
    (hosts : List String) :
    is_accept_all probeRes p ([] : List String) = none ∧
      (hosts ≠ [] → (∃ i, i < max 1 p ∧ probeRes i = none) →
        is_accept_all probeRes p hosts = none) ∧
      (hosts ≠ [] → (∀ i, i < max 1 p → probeRes i = some true) →
        is_accept_all probeRes p hosts = some true) ∧
      (hosts ≠ [] → (∀ i, i < max 1 p → probeRes i = some false) →
        is_accept_all probeRes p hosts = some false) ∧
      (hosts ≠ [] → (∀ i, i < max 1 p → probeRes i ≠ none) →
        (∃ i, i < max 1 p ∧ probeRes i = some true) →
        (∃ i, i < max 1 p ∧ probeRes i = some false) →
        is_accept_all probeRes p hosts = none) ∧
      (is_accept_all probeRes p hosts = some true →
        ∀ i, i < max 1 p → probeRes i = some true) ∧
      (is_accept_all probeRes p hosts = some false →
        ∀ i, i < max 1 p → probeRes i = some false) := by
  have hpos : 1 ≤ max 1 p := Nat.le_max_left 1 p
  refine ⟨rfl, ?_, ?_, ?_, ?_, ?_, ?_⟩
  · intro hne ⟨i, hi, hin⟩
    have := aaCount_has_none probeRes (max 1 p) 0 0 ⟨i, hi, by simpa using hin⟩
    simp [is_accept_all, hne, this]
  · intro hne h
    have := aaCount_all_true probeRes (max 1 p) 0 0 (fun k hk => by simpa using h k hk)
    simp [is_accept_all, hne, this]
  · intro hne h
    have := aaCount_all_false probeRes (max 1 p) 0 0 (fun k hk => by simpa using h k hk)
    have hz : ¬ (0 = max 1 p) := by omega
    simp [is_accept_all, hne, this, hz]
  · intro hne hnn ⟨i, hi, hit⟩ ⟨j, hj, hjf⟩
    obtain ⟨t, ht⟩ := aaCount_isSome probeRes (max 1 p) 0 0
      (fun k hk => by simpa using hnn k hk)
    obtain ⟨_, _, hall, hzero⟩ := aaCount_inv probeRes (max 1 p) 0 0 t ht
    have h1 : ¬ (t = max 1 p) := fun he => by
      have := hall (by omega) j hj
      simp at this
      rw [hjf] at this; cases this
    have h2 : ¬ (t = 0) := fun he => by
      have := hzero (by omega) i hi
      simp at this
      rw [hit] at this; cases this
    simp [is_accept_all, hne, ht, h1, h2]
  · intro hres
    by_cases hne : hosts = []
    · rw [hne] at hres; simp [is_accept_all] at hres
    · intro i hi
      rw [show is_accept_all probeRes p hosts =
            (match aaCount probeRes 0 (max 1 p) 0 with
             | none => none
             | some successes =>
               if successes = max 1 p then some true
               else if successes = 0 then some false
               else none) by simp [is_accept_all, hne]] at hres
      match hc : aaCount probeRes 0 (max 1 p) 0 with
      | none => rw [hc] at hres; cases hres
      | some t =>
        rw [hc] at hres
        obtain ⟨_, _, hall, _⟩ := aaCount_inv probeRes (max 1 p) 0 0 t hc
        by_cases he : t = max 1 p
        · have := hall (by omega) i hi
          simpa using this
        · simp [he] at hres
  · intro hres
    by_cases hne : hosts = []
    · rw [hne] at hres; simp [is_accept_all] at hres
    · intro i hi
      rw [show is_accept_all probeRes p hosts =
            (match aaCount probeRes 0 (max 1 p) 0 with
             | none => none
             | some successes =>
               if successes = max 1 p then some true
               else if successes = 0 then some false
               else none) by simp [is_accept_all, hne]] at hres
      match hc : aaCount probeRes 0 (max 1 p) 0 with
      | none => rw [hc] at hres; cases hres
      | some t =>
        rw [hc] at hres
        obtain ⟨_, _, _, hzero⟩ := aaCount_inv probeRes (max 1 p) 0 0 t hc
        by_cases he : t = 0
        · have := hzero (by omega) i hi
          simpa using this
        · by_cases hm : t = max 1 p
          · simp [hm] at hres
          · simp [hm, he] at hres

/-- Witness for C3: two Accepted attempts against one host give True. -/
theorem c3_accept_all_detector_witness :
    is_accept_all (fun _ => some true) 2 ["mx1.example"] = some true :=
  (c3_accept_all_detector (fun _ => some true) 2 ["mx1.example"]).2.2.1
    (by simp) (fun _ _ => rfl)

/- ---------- smtp_probe host-iteration lemmas ---------- -/

/-- Whether a per-host outcome abandons the host (as opposed to a
terminal Accepted / Rejected / temp classification). -/
def isAbandonedB : HostResult → Bool
  | .abandoned _ => true
  | _ => false

/-- The running `last_reason` after processing one abandoned host. -/
def reasonAfter (last : String) : HostResult → String
  | .abandoned (some r) => r
  | _ => last

/-- The `last_reason` accumulated over a prefix of abandoned hosts. -/
def reasonFold (env : String → HostSession) (u : Bool) (lr : String)
    (pre : List String) : String :=
  pre.foldl (fun last h2 => reasonAfter last (probeHost (env h2) u)) lr

theorem probeLoop_skip_abandoned (env : String → HostSession) (u : Bool) :
    ∀ (pre : List String) (lr : String) (rest : List String),
      (∀ h2 ∈ pre, isAbandonedB (probeHost (env h2) u) = true) →
      probeLoop env u lr (pre ++ rest) = probeLoop env u (reasonFold env u lr pre) rest := by
  intro pre
  induction pre with
  | nil => intro lr rest _; rfl
  | cons p ps ih =>
    intro lr rest hab
    have hp : isAbandonedB (probeHost (env p) u) = true :=
      hab p (List.mem_cons_self p ps)
    match hr : probeHost (env p) u with
    | .accepted => rw [hr] at hp; cases hp
    | .temp => rw [hr] at hp; cases hp
    | .rejected => rw [hr] at hp; cases hp
    | .abandoned r =>
      have htail : ∀ h2 ∈ ps, isAbandonedB (probeHost (env h2) u) = true :=
        fun h2 hm => hab h2 (List.mem_cons_of_mem p hm)
      have step : probeLoop env u lr ((p :: ps) ++ rest) =
          probeLoop env u (r.getD lr) (ps ++ rest) := by
        simp [probeLoop, hr]
      rw [step, ih (r.getD lr) rest htail]
      have : reasonFold env u lr (p :: ps) = reasonFold env u (r.getD lr) ps := by
        simp [reasonFold, reasonAfter, hr]
        match r with
        | none => rfl
        | some s => rfl
      rw [this]

/-- Claim C4 (amended): `smtp_probe` tries at most the first 3 hosts in
order; the host iteration stops at the first host classified Accepted,
Rejected, or transient 450/451/452 (the latter returning Inconclusive
"smtp-temp" immediately); every abandoning per-host outcome threads the
running last reason into the next host; after exhausting all (up to 3)
hosts the result is Inconclusive with the accumulated last reason
(default "smtp-inconclusive"); and a session reaching the
recipient-declaration classifies its code as 250 → Accepted,
450/451/452 → temp, 5xx → Rejected, else abandon with reason
"smtp-code". -/
theorem c4_probe_host_iteration :
    (∀ (env : String → HostSession) (u : Bool) (hosts pre rest : List String)
        (h : String),
      hosts ≠ [] → hosts.take 3 = pre ++ h :: rest →
      (∀ h2 ∈ pre, isAbandonedB (probeHost (env h2) u) = true) →
      (probeHost (env h) u = .accepted →
          smtp_probe env hosts u = (some true, "smtp-250")) ∧
        (probeHost (env h) u = .rejected →
          smtp_probe env hosts u = (some false, "smtp-5xx")) ∧
        (probeHost (env h) u = .temp →
          smtp_probe env hosts u = (none, "smtp-temp"))) ∧
      (∀ (env : String → HostSession) (u : Bool) (hosts : List String),
        hosts ≠ [] →
        (∀ h2 ∈ hosts.take 3, isAbandonedB (probeHost (env h2) u) = true) →
        smtp_probe env hosts u =
          (none, reasonFold env u ("smtp-inconclusive") (hosts.take 3))) ∧
      (∀ (c : Nat) (u : Bool),
        probeHost (rcptSession c) u =
          (if c = 250 then .accepted
           else if c = 450 ∨ c = 451 ∨ c = 452 then .temp
           else if 500 ≤ c ∧ c ≤ 599 then .rejected
           else .abandoned (some ("smtp-" ++ codeStr c)))) := by
  refine ⟨?_, ?_, ?_⟩
  · intro env u hosts pre rest h hne htake hab
    have hsp : smtp_probe env hosts u =
        probeLoop env u (reasonFold env u ("smtp-inconclusive") pre) (h :: rest) := by
      rw [show smtp_probe env hosts u =
          probeLoop env u ("smtp-inconclusive") (hosts.take 3) by
        simp [smtp_probe, hne]]
      rw [htake]
      exact probeLoop_skip_abandoned env u pre ("smtp-inconclusive") (h :: rest) hab
    refine ⟨?_, ?_, ?_⟩ <;> intro hcl <;> rw [hsp] <;> simp [probeLoop, hcl]
  · intro env u hosts hne hab
    have hskip := probeLoop_skip_abandoned env u (hosts.take 3) ("smtp-inconclusive") []
      (by simpa using hab)
    rw [List.append_nil] at hskip
    have hsp : smtp_probe env hosts u =
        probeLoop env u (reasonFold env u ("smtp-inconclusive") (hosts.take 3)) [] := by
      rw [show smtp_probe env hosts u =
          probeLoop env u ("smtp-inconclusive") (hosts.take 3) by
        simp [smtp_probe, hne]]
      exact hskip
    rw [hsp]
    simp [probeLoop]
  · intro c u
    have hcs : containsSub ("STARTTLS".data) (upperL ("".data)) = false := rfl
    simp only [probeHost, rcptSession, starttlsPhase, mailFromPhase, hcs,
      Bool.and_false, Bool.false_eq_true, if_false]
    norm_num

/-- Witness for C4: a single host whose session accepts the recipient
yields `(some true, "smtp-250")`. -/
theorem c4_probe_host_iteration_witness :
    smtp_probe envAllAccept ["h1"] true = (some true, "smtp-250") :=
  ((c4_probe_host_iteration.1 envAllAccept true ["h1"] [] [] "h1" (by simp) rfl
      (by intro h2 hm; cases hm)).1) (by decide)

/-- Counterexample to C4 as stated: with two hosts where the first
answers RCPT TO with 450 and the second would accept, `smtp_probe`
returns Inconclusive("smtp-temp") immediately instead of trying the
second (Accepted-yielding, unexhausted) host. -/
theorem c4_probe_host_iteration_counterexample :
    probeHost (envTempThenAccept ("h2")) true = .accepted ∧
      smtp_probe envTempThenAccept ["h1", "h2"] true = (none, "smtp-temp") := by
  constructor <;> decide

/-- Claim C1 (amended): when the reached transport probe returns Accepted
and the Accept-All Detector returns True and `accept_all_note` is true,
the verdict is risky with reason "accept-all" and score 0.74; and
verdict valid (reason "smtp-250", score 0.95) is produced exactly on the
path where the probe returned Accepted and not (detector True with
`accept_all_note` true). -/
theorem c1_accept_all_gating :
    (∀ (cfg : Config) (env : Env) (email : String) (t : ℚ) (note : Bool),
      hasSyntaxB env email = true →
      (env.mx (domainOf env email)).1 = true →
      cfg.allowSmtpProbe = true →
      ((provider_blocks_smtp (domainOf env email)).isSome && !cfg.probeBlocked) = false →
      env.smtp.1 = some true →
      env.acceptAll = some true →
      note = true →
      (validate_email_record cfg env email t true note).verdict = "risky" ∧
        (validate_email_record cfg env email t true note).reason = "accept-all" ∧
        (validate_email_record cfg env email t true note).score = 0.74) ∧
      (∀ (cfg : Config) (env : Env) (email : String) (t : ℚ) (ds note : Bool),
        (validate_email_record cfg env email t ds note).verdict = "valid" →
        env.smtp.1 = some true ∧
          ¬(env.acceptAll = some true ∧ note = true) ∧
          (validate_email_record cfg env email t ds note).reason = "smtp-250" ∧
          (validate_email_record cfg env email t ds note).score = 0.95 ∧
          ds = true ∧ cfg.allowSmtpProbe = true) := by
  constructor
  · intro cfg env email t note h1 h2 h3 h4 h5 h6 h7
    rcases hsm : env.smtp with ⟨sb, sn⟩
    rw [hsm] at h5
    simp only at h5
    subst h5
    subst h7
    have hns : ¬ (hasSyntaxB env email = false) := by simp [h1]
    have hnm : ¬ ((env.mx (domainOf env email)).1 = false) := by simp [h2]
    simp [validate_email_record, hns, hnm, h3, h4, hsm, h6]
  · intro cfg env email t ds note hv
    by_cases h1 : hasSyntaxB env email = false
    · exfalso; simp [validate_email_record, h1] at hv
    · by_cases h2 : (env.mx (domainOf env email)).1 = false
      · exfalso; simp [validate_email_record, h1, h2] at hv
      · by_cases h3 : (ds && cfg.allowSmtpProbe) = true
        · by_cases h4 : ((provider_blocks_smtp (domainOf env email)).isSome &&
              !cfg.probeBlocked) = true
          · exfalso
            simp [validate_email_record, fallbackRecord, h1, h2, h3, h4] at hv
          · rcases hsm : env.smtp with ⟨sb, sn⟩
            match sb with
            | some true =>
              by_cases h5 : (env.acceptAll = some true ∧ note = true)
              · exfalso
                simp [validate_email_record, h1, h2, h3, h4, hsm, h5] at hv
              · obtain ⟨hds, hal⟩ : ds = true ∧ cfg.allowSmtpProbe = true := by
                  constructor <;> [exact Bool.and_elim_left h3; exact Bool.and_elim_right h3]
                refine ⟨by simp [hsm], h5, ?_, ?_, hds, hal⟩ <;>
                  simp [validate_email_record, h1, h2, h3, h4, hsm, h5]
            | some false =>
              exfalso
              simp [validate_email_record, h1, h2, h3, h4, hsm] at hv
            | none =>
              exfalso
              simp [validate_email_record, fallbackRecord, h1, h2, h3, h4, hsm] at hv
        · exfalso
          simp [validate_email_record, fallbackRecord, h1, h2, h3] at hv

/-- Witness for C1: a probed domain whose detector answers True with
`accept_all_note = true` produces the risky accept-all record. -/
theorem c1_accept_all_gating_witness :
    (validate_email_record ⟨true, true⟩ envAcceptAll ("a@b.co") 6 true true).verdict =
        "risky" ∧
      (validate_email_record ⟨true, true⟩ envAcceptAll ("a@b.co") 6 true true).reason =
        "accept-all" ∧
      (validate_email_record ⟨true, true⟩ envAcceptAll ("a@b.co") 6 true true).score =
        0.74 :=
  c1_accept_all_gating.1 ⟨true, true⟩ envAcceptAll ("a@b.co") 6 true
    (by decide) rfl rfl (by decide) rfl rfl rfl

/-- Counterexample to C1 as stated ("regardless of the
report_accept_all/accept_all_note argument"): with `accept_all_note =
false` the detector returns True yet the verdict is valid with reason
"smtp-250", not risky/accept-all. -/
theorem c1_accept_all_gating_counterexample :
    envAcceptAll.acceptAll = some true ∧
      (validate_email_record ⟨true, true⟩ envAcceptAll ("a@b.co") 6 true false).verdict =
        "valid" ∧
      (validate_email_record ⟨true, true⟩ envAcceptAll ("a@b.co") 6 true false).reason =
        "smtp-250" := by
  refine ⟨rfl, ?_, ?_⟩ <;> rfl

/-- Claim C6 (amended): for a syntactically valid address at a domain
with exchangers: when transport probing is disabled by the caller or
globally, the result is risky and flagged unverifiable (reason
"unverifiable") exactly when the provider is on the refuse-to-verify
list, with reason "dns-only" otherwise; when probing is enabled but the
provider is on the refuse-to-verify list and policy says not to probe
it, the result is risky with reason "unverifiable". -/
theorem c6_unverifiable_gating (cfg : Config) (env : Env) (email : String)
    (t : ℚ) (ds note : Bool) :
    hasSyntaxB env email = true →
    (env.mx (domainOf env email)).1 = true →
    (((ds && cfg.allowSmtpProbe) = false →
        (validate_email_record cfg env email t ds note).verdict = "risky" ∧
          (validate_email_record cfg env email t ds note).reason =
            (if (provider_blocks_smtp (domainOf env email)).isSome = true then
              "unverifiable" else "dns-only")) ∧
      ((ds && cfg.allowSmtpProbe) = true →
        (provider_blocks_smtp (domainOf env email)).isSome = true →
        cfg.probeBlocked = false →
        (validate_email_record cfg env email t ds note).verdict = "risky" ∧
          (validate_email_record cfg env email t ds note).reason = "unverifiable")) := by
  intro h1 h2
  have hns : ¬ (hasSyntaxB env email = false) := by simp [h1]
  have hnm : ¬ ((env.mx (domainOf env email)).1 = false) := by simp [h2]
  constructor
  · intro h3
    cases hbn : (provider_blocks_smtp (domainOf env email)).isSome <;>
      simp [validate_email_record, fallbackRecord, hns, hnm, h3, hbn]
  · intro h3 hbn hpb
    have h4 : ((provider_blocks_smtp (domainOf env email)).isSome &&
        !cfg.probeBlocked) = true := by rw [hbn, hpb]; rfl
    simp [validate_email_record, fallbackRecord, hns, hnm, h3, h4]

/-- Witness for C6: probing enabled but `gmail.com` is on the
refuse-to-verify list and `PROBE_BLOCKED_PROVIDERS` is false. -/
theorem c6_unverifiable_gating_witness :
    (validate_email_record ⟨true, false⟩ envMxOnly ("a@gmail.com") 6 true true).verdict =
        "risky" ∧
      (validate_email_record ⟨true, false⟩ envMxOnly ("a@gmail.com") 6 true true).reason =
        "unverifiable" :=
  (c6_unverifiable_gating ⟨true, false⟩ envMxOnly ("a@gmail.com") 6 true true
    (by decide) rfl).2 rfl (by decide) rfl

/-- Counterexample to C6 as stated: probing disabled by the caller at a
domain whose provider is not on the refuse-to-verify list gives reason
"dns-only", not "unverifiable". -/
theorem c6_unverifiable_gating_counterexample :
    (validate_email_record ⟨true, true⟩ envMxOnly ("a@b.co") 6 false true).reason =
        "dns-only" ∧
      ¬((validate_email_record ⟨true, true⟩ envMxOnly ("a@b.co") 6 false true).reason =
        "unverifiable") := by
  constructor
  · rfl
  · intro h
    exact absurd (h : ("dns-only" : String) = "unverifiable") (by decide)

/-- Claim C7: the fallback risky score starts at 0.62, subtracts 0.22
if disposable, 0.12 if role account, 0.03 if free provider, 0.18 if the
accept-all flag is true and 0.08 if unverifiable, clamped to [0, 0.89];
and on the fallback path (reason "unverifiable" or "dns-only") the
returned record is risky with exactly this score rounded to 3 decimals,
computed from the record's own check flags and unverifiable flag. -/
theorem c7_fallback_score :
    (∀ (c : Checks) (u : Bool),
      fallback_risky_score c u =
        max 0 (min 0.89 ((0.62 : ℚ) - (if c.is_disposable then 0.22 else 0) -
          (if c.is_role_address then 0.12 else 0) -
          (if c.is_free_provider then 0.03 else 0) -
          (if c.is_accept_all = some true then 0.18 else 0) -
          (if u then 0.08 else 0)))) ∧
      (∀ (cfg : Config) (env : Env) (email : String) (t : ℚ) (ds note : Bool),
        ((validate_email_record cfg env email t ds note).reason = "unverifiable" ∨
          (validate_email_record cfg env email t ds note).reason = "dns-only") →
        (validate_email_record cfg env email t ds note).verdict = "risky" ∧
          (validate_email_record cfg env email t ds note).score =
            round3 (fallback_risky_score
              (validate_email_record cfg env email t ds note).checks
              ((validate_email_record cfg env email t ds note).reason ==
                "unverifiable"))) := by
  constructor
  · intro c u
    unfold fallback_risky_score
    dsimp only
    split_ifs <;> norm_num
  · intro cfg env email t ds note hr
    by_cases h1 : hasSyntaxB env email = false
    · exfalso
      simp [validate_email_record, h1] at hr
    · by_cases h2 : (env.mx (domainOf env email)).1 = false
      · exfalso
        simp [validate_email_record, h1, h2] at hr
      · by_cases h3 : (ds && cfg.allowSmtpProbe) = true
        · by_cases h4 : ((provider_blocks_smtp (domainOf env email)).isSome &&
              !cfg.probeBlocked) = true
          · simp [validate_email_record, fallbackRecord, h1, h2, h3, h4]
          · rcases hsm : env.smtp with ⟨sb, sn⟩
            match sb with
            | some true =>
              by_cases h5 : (env.acceptAll = some true ∧ note = true)
              · exfalso
                simp [validate_email_record, h1, h2, h3, h4, hsm, h5] at hr
              · exfalso
                simp [validate_email_record, h1, h2, h3, h4, hsm, h5] at hr
            | some false =>
              exfalso
              simp [validate_email_record, h1, h2, h3, h4, hsm] at hr
            | none =>
              simp [validate_email_record, fallbackRecord, h1, h2, h3, h4, hsm]
        · cases hbn : (provider_blocks_smtp (domainOf env email)).isSome <;>
            simp [validate_email_record, fallbackRecord, h1, h2, h3, hbn]

/-- Witness for C7: a plain domain with exchangers and probing disabled
lands on the fallback path with reason "dns-only". -/
theorem c7_fallback_score_witness :
    (validate_email_record ⟨true, true⟩ envMxOnly ("a@b.co") 6 false true).verdict =
        "risky" ∧
      (validate_email_record ⟨true, true⟩ envMxOnly ("a@b.co") 6 false true).score =
        round3 (fallback_risky_score
          (validate_email_record ⟨true, true⟩ envMxOnly ("a@b.co") 6 false true).checks
          ((validate_email_record ⟨true, true⟩ envMxOnly ("a@b.co") 6 false true).reason ==
            "unverifiable")) :=
  c7_fallback_score.2 ⟨true, true⟩ envMxOnly ("a@b.co") 6 false true (Or.inr rfl)

/-- Claim C8: for every malformed input string (no commercial at, empty
domain, or no dot in the domain after normalization) the in-repo
fallback regular expression rejects, and — under the sole assumption
that the external RFC-aware parser also rejects it — the engine returns
verdict invalid, reason "bad-syntax", score 0.05, without raising
(the embedding is total). -/
theorem c8_bad_syntax :
    (∀ s : String, malformedB s = true → emailRegexMatch s = none) ∧
      (∀ (cfg : Config) (env : Env) (email : String) (t : ℚ) (ds note : Bool),
        env.primary (normalize email) = none →
        malformedB (normalize email) = true →
        (validate_email_record cfg env email t ds note).verdict = "invalid" ∧
          (validate_email_record cfg env email t ds note).reason = "bad-syntax" ∧
          (validate_email_record cfg env email t ds note).score = 0.05 ∧
          (validate_email_record cfg env email t ds note).status = "invalid") := by
  constructor
  · exact malformed_regex_none
  · intro cfg env email t ds note hp hm
    have hr : emailRegexMatch (normalize email) = none :=
      malformed_regex_none (normalize email) hm
    have hs : syntaxTriple env email = (false, none, none) := by
      simp [syntaxTriple, check_syntax, hp, hr]
    have hsb : hasSyntaxB env email = false := by
      simp [hasSyntaxB, hs, truthyS]
    simp [validate_email_record, hsb]

/-- Witness for C8: the string "nodomain" has no commercial at. -/
theorem c8_bad_syntax_witness :
    malformedB (normalize ("nodomain")) = true ∧
      (validate_email_record ⟨true, true⟩ envNoMx ("nodomain") 6 true true).verdict =
          "invalid" ∧
        (validate_email_record ⟨true, true⟩ envNoMx ("nodomain") 6 true true).reason =
          "bad-syntax" ∧
        (validate_email_record ⟨true, true⟩ envNoMx ("nodomain") 6 true true).score =
          0.05 ∧
        (validate_email_record ⟨true, true⟩ envNoMx ("nodomain") 6 true true).status =
          "invalid" :=
  ⟨by decide, c8_bad_syntax.2 ⟨true, true⟩ envNoMx ("nodomain") 6 true true rfl (by decide)⟩

set_option maxRecDepth 200000 in
/-- Claim C5, evaluated at the failing input: `typo_suggestion` on
"gmail.co" returns "gmail.com" (as the claim states), but on
"gmail.com" — a member of `COMMON_DOMAINS`, hence its own closest match
with similarity 1 ≥ 0.86 — it returns the input domain itself instead
of none, contradicting "never returns the input domain". -/
theorem c5_typo_suggestion_self_match :
    typo_suggestion ("gmail.co") = some ("gmail.com") ∧
      typo_suggestion ("gmail.com") = some ("gmail.com") := by
  constructor
  · rfl
  · decide

/- ---------- fuel soundness of the matching-block recursion ----------

`matchingTotalF` carries structural fuel only to stay kernel-evaluable;
the following lemmas show the fuel is semantically irrelevant: any fuel
strictly above `a.length + b.length` computes the same value, so
`matchingTotal` is the fixpoint of the block recursion. -/

theorem prefLen_le_left : ∀ (a b : List Char), prefLen a b ≤ a.length := by
  intro a
  induction a with
  | nil => intro b; cases b <;> simp [prefLen]
  | cons c cs ih =>
    intro b
    cases b with
    | nil => simp [prefLen]
    | cons d ds =>
      have hstep : prefLen (c :: cs) (d :: ds) =
          if c = d then prefLen cs ds + 1 else 0 := rfl
      rw [hstep]
      by_cases h : c = d
      · rw [if_pos h]
        have := ih ds
        simp only [List.length_cons]
        omega
      · rw [if_neg h]
        exact Nat.zero_le _

theorem prefLen_le_right : ∀ (a b : List Char), prefLen a b ≤ b.length := by
  intro a
  induction a with
  | nil => intro b; cases b <;> simp [prefLen]
  | cons c cs ih =>
    intro b
    cases b with
    | nil => simp [prefLen]
    | cons d ds =>
      have hstep : prefLen (c :: cs) (d :: ds) =
          if c = d then prefLen cs ds + 1 else 0 := rfl
      rw [hstep]
      by_cases h : c = d
      · rw [if_pos h]
        have := ih ds
        simp only [List.length_cons]
        omega
      · rw [if_neg h]
        exact Nat.zero_le _

theorem foldl_pres {α β : Type} (P : β → Prop) (f : β → α → β) :
    ∀ (l : List α) (init : β), P init →
      (∀ acc x, x ∈ l → P acc → P (f acc x)) → P (l.foldl f init) := by
  intro l
  induction l with
  | nil => intro init h _; exact h
  | cons x xs ih =>
    intro init h hstep
    exact ih (f init x) (hstep init x (List.mem_cons_self x xs) h)
      (fun acc y hy => hstep acc y (List.mem_cons_of_mem x hy))

theorem flm_bounds (a b : List Char) :
    (flm a b).1 + (flm a b).2.2 ≤ a.length ∧
      (flm a b).2.1 + (flm a b).2.2 ≤ b.length := by
  unfold flm
  refine foldl_pres
    (fun (t : Nat × Nat × Nat) => t.1 + t.2.2 ≤ a.length ∧ t.2.1 + t.2.2 ≤ b.length)
    _ _ _ (by simp) ?_
  intro acc i hi hacc
  refine foldl_pres
    (fun (t : Nat × Nat × Nat) => t.1 + t.2.2 ≤ a.length ∧ t.2.1 + t.2.2 ≤ b.length)
    _ _ _ hacc ?_
  intro acc2 j hj hacc2
  have hia : i < a.length := List.mem_range.mp hi
  have hjb : j < b.length := List.mem_range.mp hj
  by_cases hlt : acc2.2.2 < prefLen (a.drop i) (b.drop j)
  · have hkl : prefLen (a.drop i) (b.drop j) ≤ a.length - i := by
      have := prefLen_le_left (a.drop i) (b.drop j)
      simpa using this
    have hkr : prefLen (a.drop i) (b.drop j) ≤ b.length - j := by
      have := prefLen_le_right (a.drop i) (b.drop j)
      simpa using this
    simp only [hlt, if_pos]
    exact ⟨by omega, by omega⟩
  · simpa [hlt] using hacc2

theorem matchingTotalF_fuel_irrelevant :
    ∀ (f1 f2 : Nat) (a b : List Char), a.length + b.length < f1 →
      a.length + b.length < f2 → matchingTotalF f1 a b = matchingTotalF f2 a b := by
  intro f1
  induction f1 with
  | zero => intro f2 a b h1 _; omega
  | succ g1 ih =>
    intro f2 a b h1 h2
    match f2, h2 with
    | g2 + 1, h2 =>
      show matchingTotalF (g1 + 1) a b = matchingTotalF (g2 + 1) a b
      unfold matchingTotalF
      obtain ⟨hba, hbb⟩ := flm_bounds a b
      by_cases hk : (flm a b).2.2 = 0
      · simp [hk]
      · simp only [hk, if_neg, if_false]
        have hk1 : 1 ≤ (flm a b).2.2 := by omega
        have hmL : (a.take (flm a b).1).length + (b.take (flm a b).2.1).length <
            a.length + b.length := by
          simp only [List.length_take]
          omega
        have hmR : (a.drop ((flm a b).1 + (flm a b).2.2)).length +
            (b.drop ((flm a b).2.1 + (flm a b).2.2)).length < a.length + b.length := by
          simp only [List.length_drop]
          omega
        rw [ih g2 _ _ (by omega) (by omega), ih g2 _ _ (by omega) (by omega)]

/-- Any fuel strictly above the joint length computes `matchingTotal`. -/
theorem matchingTotal_eq_fuel (fuel : Nat) (a b : List Char)
    (h : a.length + b.length < fuel) :
    matchingTotalF fuel a b = matchingTotal a b :=
  matchingTotalF_fuel_irrelevant fuel (a.length + b.length + 1) a b h (by omega)

end ZenoSend

